import Mathlib

/-!
Verification development for `pdf_extractor.py`.

The extraction core of the program is shallowly embedded here:

* text is modelled as `List Char` (ASCII scope);
* Python `str.strip` / `str.split()` / `str.lower` / `str.replace(",", "")`
  are modelled by `pyStrip`, `pySplit`, `pyLower`, `removeCommas`;
* Python `int(...)` and `float(...)` on strings are modelled by `pyInt` and
  `pyFloat` (`float` values are kept as exact rationals, which is faithful
  here because the program only parses and stores them, it never computes
  with them; the special values inf/nan are represented explicitly);
* each regular expression used by the program is embedded as a deterministic
  scanner (every pattern involved is backtracking-free, so a leftmost scan
  is exact `re.search` semantics).

The functions `extract_metadata` (its "class" field), `extract_claims_data`,
`_process_notes`, `extract_benefits_data` and `validate_dataframes` are then
translated line by line, and the claimed properties are proved or refuted.
-/

namespace PdfExtractor

/-- Text is a list of characters; `str` injects Lean string literals. -/
abbrev Str := List Char

def str (s : String) : Str := s.toList

/-- Whitespace characters recognised by Python `str.split` / `str.strip` and
by the regex class `\s` (ASCII scope). -/
def isSpace (c : Char) : Bool :=
  c == ' ' || c == '\t' || c == '\n' || c == '\r' || c == '\x0b' || c == '\x0c'

/-- Decimal digit, the regex class `\d` (ASCII scope). -/
def isDigit (c : Char) : Bool := '0' ≤ c && c ≤ '9'

def isUpperA (c : Char) : Bool := 'A' ≤ c && c ≤ 'Z'

def isLowerA (c : Char) : Bool := 'a' ≤ c && c ≤ 'z'

/-- What the character class `[A-Z]` matches under `re.IGNORECASE` (ASCII). -/
def isLetterA (c : Char) : Bool := isUpperA c || isLowerA c

/-- ASCII lower-casing of one character (Python `str.lower`, ASCII scope). -/
def toLowerA (c : Char) : Char :=
  if isUpperA c then Char.ofNat (c.toNat + 32) else c

/-- Python `str.lower` (ASCII scope). -/
def pyLower (s : Str) : Str := s.map toLowerA

/-- Python `str.strip()`: drop leading and trailing whitespace. -/
def pyStrip (s : Str) : Str :=
  ((s.dropWhile isSpace).reverse.dropWhile isSpace).reverse

/-- Helper for `pySplit`: `acc` holds the (reversed) token being read. -/
def pySplitAux : Str → Str → List Str
  | [], [] => []
  | [], acc => [acc.reverse]
  | c :: cs, acc =>
    if isSpace c then
      match acc with
      | [] => pySplitAux cs []
      | _ => acc.reverse :: pySplitAux cs []
    else pySplitAux cs (c :: acc)

/-- Python `str.split()` with no argument: split on whitespace runs,
dropping empty tokens. -/
def pySplit (s : Str) : List Str := pySplitAux s []

/-- Python `str.replace(",", "")`. -/
def removeCommas (s : Str) : Str := s.filter (fun c => !(c == ','))

/-- Numeric value of a digit character. -/
def digitVal (c : Char) : Nat := c.toNat - '0'.toNat

/-- Value of a (most-significant-first) digit list. -/
def natOfDigits (ds : Str) : Nat := ds.foldl (fun n c => 10 * n + digitVal c) 0

/-- Helper for `digitsU`: consume digits, allowing a single underscore
between two digits (Python numeric-literal syntax accepted by `int`/`float`).
Returns the digits read (underscores removed) and the unconsumed rest. -/
def digitsUAux : Str → Str → (Str × Str)
  | [], acc => (acc.reverse, [])
  | c :: cs, acc =>
    if isDigit c then digitsUAux cs (c :: acc)
    else if c == '_' then
      match cs with
      | d :: _ => if isDigit d then digitsUAux cs acc else (acc.reverse, c :: cs)
      | [] => (acc.reverse, c :: cs)
    else (acc.reverse, c :: cs)

/-- Consume a non-empty digit run with optional single underscores between
digits; `none` if the input does not start with a digit. -/
def digitsU (s : Str) : Option (Str × Str) :=
  match s with
  | c :: _ => if isDigit c then some (digitsUAux s []) else none
  | [] => none

/-- Optional `+`/`-` sign; returns (negative?, rest). -/
def takeSign (s : Str) : Bool × Str :=
  match s with
  | '+' :: r => (false, r)
  | '-' :: r => (true, r)
  | r => (false, r)

/-- Python `int(str)`: surrounding whitespace, an optional sign, then a
non-empty underscore-separated digit run consuming the whole string. -/
def pyInt (s : Str) : Option Int :=
  let t := pyStrip s
  let (neg, rest) := takeSign t
  match digitsU rest with
  | some (ds, []) => some (if neg then -(natOfDigits ds : Int) else (natOfDigits ds : Int))
  | _ => none

/-- Value of a Python `float`: a finite value is kept exactly as a decimal
rational `fin num scale`, denoting num / 10 ^ scale, in canonical form
(scale is minimal, so equal decimal values have equal representations).
This is a faithful model here because the embedded code only parses and
stores floats, it never computes with them; the special values inf/nan are
represented explicitly. -/
inductive PyFloat where
  | fin : Int → Nat → PyFloat
  | inf : Bool → PyFloat
  | nan : PyFloat
deriving DecidableEq, Repr

/-- Canonicalize num / 10 ^ scale by stripping common factors of 10
(structurally bounded by the scale). -/
def canon10 : Int → Nat → Int × Nat
  | n, 0 => (n, 0)
  | n, k + 1 => if n % 10 = 0 then canon10 (n / 10) k else (n, k + 1)

/-- Assemble a finite float value from integer digits, fraction digits and a
decimal exponent. -/
def mkFloatVal (neg : Bool) (intDs fracDs : Str) (ex : Int) : PyFloat :=
  let base : Int :=
    (natOfDigits intDs : Int) * (10 : Int) ^ fracDs.length + (natOfDigits fracDs : Int)
  let signed : Int := if neg then -base else base
  let p : Int × Nat :=
    if 0 ≤ ex then (signed * (10 : Int) ^ ex.toNat, fracDs.length)
    else (signed, fracDs.length + (-ex).toNat)
  let c := canon10 p.1 p.2
  .fin c.1 c.2

/-- Parse an optional exponent part and require end of input. -/
def pyFloatExp (neg : Bool) (intDs fracDs : Str) (r : Str) : Option PyFloat :=
  match r with
  | [] => some (mkFloatVal neg intDs fracDs 0)
  | e :: r4 =>
    if e == 'e' || e == 'E' then
      let (eneg, r5) := takeSign r4
      match digitsU r5 with
      | some (eds, []) =>
        some (mkFloatVal neg intDs fracDs
          (if eneg then -(natOfDigits eds : Int) else (natOfDigits eds : Int)))
      | _ => none
    else none

/-- Parse the mantissa (`digits`, `digits.`, `digits.digits` or `.digits`)
followed by the exponent. -/
def pyFloatMantissa (neg : Bool) (rest : Str) : Option PyFloat :=
  match digitsU rest with
  | some (ds, r1) =>
    match r1 with
    | '.' :: r2 =>
      match digitsU r2 with
      | some (fs, r3) => pyFloatExp neg ds fs r3
      | none => pyFloatExp neg ds [] r2
    | _ => pyFloatExp neg ds [] r1
  | none =>
    match rest with
    | '.' :: r2 =>
      match digitsU r2 with
      | some (fs, r3) => pyFloatExp neg [] fs r3
      | none => none
    | _ => none

/-- Python `float(str)`: surrounding whitespace, optional sign, then either
`inf`/`infinity`/`nan` (case-insensitive) or a decimal number with optional
fraction and exponent. `none` models `ValueError`. -/
def pyFloat (s : Str) : Option PyFloat :=
  let t := pyStrip s
  let (neg, rest) := takeSign t
  let low := pyLower rest
  if low == str "inf" || low == str "infinity" then some (.inf neg)
  else if low == str "nan" then some .nan
  else pyFloatMantissa neg rest

/-! Regex scanners.  Each pattern used by the program is deterministic at a
given start position (greedy runs never need to backtrack, see the comments),
so `re.search` is exactly: try the pattern at each position from the left and
return the first success. -/

/-- Generic leftmost search: try the matcher at every suffix, leftmost first.
(The matcher of every embedded pattern needs at least one character, so the
empty-suffix position can never match and is not tried.) -/
def search (m : Str → Option α) : Str → Option α
  | [] => none
  | c :: cs =>
    match m (c :: cs) with
    | some r => some r
    | none => search m cs

/-- Case-insensitive literal: consume `lit` (given lower-case) from the head
of `s`, comparing lower-cased characters; models a literal under `re.I`. -/
def matchCI : Str → Str → Option Str
  | [], s => some s
  | _ :: _, [] => none
  | l :: ls, c :: cs => if toLowerA c == l then matchCI ls cs else none

/-- The regex `\s*`: greedily drop whitespace. -/
def ws0 (s : Str) : Str := s.dropWhile isSpace

/-- The regex `\s+`: at least one whitespace character, then greedily more. -/
def ws1 (s : Str) : Option Str :=
  match s with
  | c :: cs => if isSpace c then some (cs.dropWhile isSpace) else none
  | [] => none

/-- The regex `(\d+)`: a greedy non-empty digit run, returned as capture. -/
def digits1 (s : Str) : Option (Str × Str) :=
  match s with
  | c :: _ => if isDigit c then some (s.takeWhile isDigit, s.dropWhile isDigit) else none
  | [] => none

/-- Expect one specific character. -/
def expectChar (c : Char) (s : Str) : Option Str :=
  match s with
  | x :: r => if x == c then some r else none
  | [] => none

/-- The regex `[-–]?`: an optional dash (greedy; if taking the dash fails the
rest, skipping it would fail too, since the patterns continue with a
non-dash character). -/
def optDash (s : Str) : Str :=
  match s with
  | '-' :: r => r
  | '–' :: r => r
  | s => s

/-- Matcher at one position for `policy\s*year\s*[-–]?\s*2\s*years\s*prior`
(with `re.I`). -/
def matchHdr2yrAt (s : Str) : Option Unit := do
  let s ← matchCI (str "policy") s
  let s ← matchCI (str "year") (ws0 s)
  let s := ws0 (optDash (ws0 s))
  let s ← expectChar '2' s
  let s ← matchCI (str "years") (ws0 s)
  let _ ← matchCI (str "prior") (ws0 s)
  some ()

/-- Matcher at one position for `prior\s*policy\s*year` (with `re.I`). -/
def matchHdrPriorAt (s : Str) : Option Unit := do
  let s ← matchCI (str "prior") s
  let s ← matchCI (str "policy") (ws0 s)
  let _ ← matchCI (str "year") (ws0 s)
  some ()

/-- Matcher at one position for `last\s*policy\s*year` (with `re.I`). -/
def matchHdrLastAt (s : Str) : Option Unit := do
  let s ← matchCI (str "last") s
  let s ← matchCI (str "policy") (ws0 s)
  let _ ← matchCI (str "year") (ws0 s)
  some ()

/-- `re.search(r"policy\s*year\s*[-–]?\s*2\s*years\s*prior", line, re.I)`
as a Bool. -/
def hdr2yrMatch (line : Str) : Bool := (search matchHdr2yrAt line).isSome

/-- `re.search(r"prior\s*policy\s*year", line, re.I)` as a Bool. -/
def hdrPriorMatch (line : Str) : Bool := (search matchHdrPriorAt line).isSome

/-- `re.search(r"last\s*policy\s*year", line, re.I)` as a Bool. -/
def hdrLastMatch (line : Str) : Bool := (search matchHdrLastAt line).isSome

/-- `re.match(r"^\d{6}", line)`: the first six characters exist and are
digits (the run may continue past six). -/
def startsSixDigits (line : Str) : Bool :=
  decide (6 ≤ line.length) && (line.take 6).all isDigit

/-- Matcher at one position for `class\s+([A-Z])` under `re.I`: the literal
(case-insensitive), at least one whitespace, then one letter ([A-Z] matches
both cases under IGNORECASE); the captured character keeps its original
case. -/
def matchClassAt (s : Str) : Option Char :=
  match matchCI (str "class") s with
  | none => none
  | some s1 =>
    match ws1 s1 with
    | none => none
    | some s2 =>
      match s2 with
      | c :: _ => if isLetterA c then some c else none
      | [] => none

/-- Matcher at one position for `paid\s+(\d+)\s*%` (applied to lower-cased
text, so the literal is exact). -/
def matchPaidPctAt (s : Str) : Option Str := do
  let s ← matchCI (str "paid") s
  let s ← ws1 s
  let (ds, s) ← digits1 s
  let _ ← expectChar '%' (ws0 s)
  some ds

/-- Matcher at one position for `(\d+)\s*%\s*up\s*to`. -/
def matchPctUpToAt (s : Str) : Option Str := do
  let (ds, s) ← digits1 s
  let s ← expectChar '%' (ws0 s)
  let s ← matchCI (str "up") (ws0 s)
  let _ ← matchCI (str "to") (ws0 s)
  some ds

/-- Matcher at one position for `(\d+)\s*%`. -/
def matchPctAt (s : Str) : Option Str := do
  let (ds, s) ← digits1 s
  let _ ← expectChar '%' (ws0 s)
  some ds

/-- Python `pat in s` (substring containment). -/
def containsSub (s pat : Str) : Bool :=
  match s with
  | [] => pat.isEmpty
  | _ :: rest => pat.isPrefixOf s || containsSub rest pat

/-! Data model and embedded program functions. -/

/-- The fields of the metadata dict consumed by the claims and benefits
extractors (`end_date`, `class`, `overall_limit`); `cls` stands for the dict
key `"class"` (a Lean keyword). -/
structure Meta where
  end_date : Str
  cls : Str
  overall_limit : Int
deriving DecidableEq, Repr

/-- The documented defaults of `extract_metadata`. -/
def metaDefault : Meta := ⟨str "2023-02-16", str "B", 1000000⟩

/-- The `"class"` entry computed by `extract_metadata`: search the page text
with `re.search(r"class\s+([A-Z])", text, re.I)`; on a match store
`m.group(1).strip()`, otherwise keep the default `"B"`. -/
def extract_metadata_class (text : Str) : Str :=
  match search matchClassAt text with
  | some c => pyStrip [c]
  | none => str "B"

/-- One row appended to `claims` by `extract_claims_data`. -/
structure ClaimRecord where
  Monthly_Claims : Str
  Number_of_Insured_Lives : Int
  Number_of_Claims : Int
  Amount_of_Paid_Claims : PyFloat
  Amount_of_Paid_Claims_VAT : PyFloat
  Policy_Year : Str
  End_Date : Str
  Class : Str
  Overall_Limit : Int
deriving DecidableEq, Repr

/-- The three `if`/`elif` header tests of `extract_claims_data`, applied to
the (already stripped) line: a match overwrites `current_section`, otherwise
it is left unchanged. -/
def headerStep (sec : Option Str) (line : Str) : Option Str :=
  if hdr2yrMatch line then some (str "2 years Prior")
  else if hdrPriorMatch line then some (str "Prior Policy Year")
  else if hdrLastMatch line then some (str "Last Policy Year")
  else sec

/-- The body of the `if re.match(r"^\d{6}", line)` branch: split the line,
require at least five tokens, skip if token 3 or 4 strips to empty, then
parse tokens 1-4 (ints, then comma-stripped floats); any `ValueError` drops
the whole line (the `dict` is built before `append`, so no partial record
can ever be appended). -/
def parseLine (meta : Meta) (sec : Str) (line : Str) : Option ClaimRecord :=
  let parts := pySplit line
  if 5 ≤ parts.length then
    if pyStrip (parts.getD 3 []) == [] || pyStrip (parts.getD 4 []) == [] then none
    else
      match pyInt (parts.getD 1 []), pyInt (parts.getD 2 []),
            pyFloat (removeCommas (parts.getD 3 [])),
            pyFloat (removeCommas (parts.getD 4 [])) with
      | some lives, some nclaims, some paid, some vat =>
        some ⟨parts.getD 0 [], lives, nclaims, paid, vat,
              sec, meta.end_date, meta.cls, meta.overall_limit⟩
      | _, _, _, _ => none
  else none

/-- One iteration of the `for line in lines` loop of `extract_claims_data`:
strip the line, apply the header transitions, `continue` if no section is
active, then test/parse the line as a data line. -/
def claimsStep (meta : Meta) (st : Option Str × List ClaimRecord) (rawLine : Str) :
    Option Str × List ClaimRecord :=
  let line := pyStrip rawLine
  match headerStep st.1 line with
  | none => (none, st.2)
  | some sec =>
    if startsSixDigits line then
      match parseLine meta sec line with
      | some r => (some sec, st.2 ++ [r])
      | none => (some sec, st.2)
    else (some sec, st.2)

/-- `extract_claims_data`, with the page text already split into lines and
the metadata passed explicitly (the pdfplumber read and the
`extract_metadata` call are the external collaborators). -/
def extract_claims_data (meta : Meta) (lines : List Str) : List ClaimRecord :=
  (lines.foldl (claimsStep meta) (none, [])).2

/-- The `current_section` state after a sequence of lines. -/
def sectionFold (lines : List Str) : Option Str :=
  (lines.foldl (claimsStep metaDefault) (none, [])).1

/-- `_process_notes`: lower-case `f"{txt} {full_line}"`, probe the three
percentage patterns in order, else the `cesarean` substring test, else the
sentinel. -/
def process_notes (txt fullLine : Str) : Str :=
  let combined := pyLower (txt ++ ' ' :: fullLine)
  match search matchPaidPctAt combined with
  | some ds => ds ++ str "%"
  | none =>
    match search matchPctUpToAt combined with
    | some ds => ds ++ str "%"
    | none =>
      match search matchPctAt combined with
      | some ds => ds ++ str "%"
      | none =>
        if containsSub combined (str "cesarean") then str "yes" else str "No info"

/-- A cell of a numeric benefits column after
`.str.replace(",", "").astype(float, errors="ignore")`: either the whole
column converted (each cell a float) or the whole column passed through as
comma-stripped strings. -/
inductive Cell where
  | f : PyFloat → Cell
  | s : Str → Cell
deriving DecidableEq, Repr

/-- One row of the raw Camelot grid, in the fixed 5-column order
(benefit label, claims count, claims amount, claims VAT, raw notes). -/
structure RawRow where
  c0 : Str
  c1 : Str
  c2 : Str
  c3 : Str
  c4 : Str
deriving DecidableEq, Repr

/-- One row of the normalized benefits output. -/
structure BenefitRecord where
  Benefit_Sama : Str
  Number_of_Claims : Cell
  Amount_of_Claims : Cell
  Amount_of_Claims_VAT : Cell
  Notes : Str
  Policy_Year : Str
  End_Date : Str
  Class : Str
  Overall_Limit : Int
deriving DecidableEq, Repr

/-- `ben_df["Number_of_Claims"].str.match(r"\d+")`: `re.match` anchors at
the beginning only, so this is "the cell starts with a digit". -/
def rowKept (r : RawRow) : Bool :=
  match r.c1 with
  | c :: _ => isDigit c
  | [] => false

/-- `.str.replace(",", "").astype(float, errors="ignore")` on one column:
commas are stripped from every cell first; `astype` with `errors="ignore"`
then converts the column as a whole and, if ANY cell fails, returns the
(comma-stripped) column unchanged. -/
def convertColumn (vals : List Str) : List Cell :=
  let stripped := vals.map removeCommas
  if stripped.all (fun v => (pyFloat v).isSome) then
    stripped.map (fun v => Cell.f ((pyFloat v).getD PyFloat.nan))
  else
    stripped.map Cell.s

/-- Reassemble the final records from the kept rows, the three converted
columns and the notes column (the dataframe keeps rows aligned by index). -/
def zipRows (meta : Meta) :
    List RawRow → List Cell → List Cell → List Cell → List Str → List BenefitRecord
  | r :: rs, a :: as_, b :: bs, c :: cs, n :: ns =>
    ⟨r.c0, a, b, c, n, str "Last Policy Year",
     meta.end_date, meta.cls, meta.overall_limit⟩ :: zipRows meta rs as_ bs cs ns
  | _, _, _, _, _ => []

/-- `extract_benefits_data`, with the Camelot grid (already the last table
of the page) and the metadata passed explicitly: filter rows whose
claims-count cell matches `\d+` at its start, derive notes, attach the
metadata columns, and convert the three numeric columns. -/
def extract_benefits_data (meta : Meta) (grid : List RawRow) : List BenefitRecord :=
  let kept := grid.filter rowKept
  let notes := kept.map (fun r => process_notes r.c4 r.c4)
  let col1 := convertColumn (kept.map (fun r => r.c1))
  let col2 := convertColumn (kept.map (fun r => r.c2))
  let col3 := convertColumn (kept.map (fun r => r.c3))
  zipRows meta kept col1 col2 col3 notes

/-- One diagnostic logged by `validate_dataframes`
(`logger.error(f"Missing claims column: ...")` or the benefits variant). -/
inductive Diag where
  | missingClaims : Str → Diag
  | missingBen : Str → Diag
deriving DecidableEq, Repr

/-- The `req_claims` list of `validate_dataframes`. -/
def req_claims : List Str :=
  [str "Monthly_Claims", str "Number_of_Insured_Lives", str "Number_of_Claims",
   str "Amount_of_Paid_Claims", str "Amount_of_Paid_Claims_VAT", str "Policy_Year",
   str "End_Date", str "Class", str "Overall_Limit"]

/-- The `req_ben` list of `validate_dataframes`. -/
def req_ben : List Str :=
  [str "Benefit_Sama", str "Number_of_Claims", str "Amount_of_Claims",
   str "Amount_of_Claims_VAT", str "Notes", str "Policy_Year",
   str "End_Date", str "Class", str "Overall_Limit"]

/-- One of the two `for col in req_...` loops of `validate_dataframes`: for
each required column absent from `cols`, log one diagnostic (built with
`ctor`) and clear the flag. -/
def checkCols (ctor : Str → Diag) (cols : List Str) (st : Bool × List Diag)
    (req : List Str) : Bool × List Diag :=
  req.foldl
    (fun acc col => if col ∈ cols then acc else (false, acc.2 ++ [ctor col])) st

/-- `validate_dataframes`: start with `ok = True`, walk both required-column
lists, and for each absent column log one diagnostic and clear `ok`; the
collected diagnostics are returned alongside `ok` (the function is total:
it never raises). -/
def validate_dataframes (claimsCols benCols : List Str) : Bool × List Diag :=
  checkCols Diag.missingBen benCols
    (checkCols Diag.missingClaims claimsCols (true, []) req_claims) req_ben

/-- The header label (if any) that a raw line sets, independent of the
current state: the same three pattern tests as `headerStep`, on the stripped
line, but yielding `none` instead of "keep the old section". -/
def lineHeaderLabel (line : Str) : Option Str :=
  if hdr2yrMatch (pyStrip line) then some (str "2 years Prior")
  else if hdrPriorMatch (pyStrip line) then some (str "Prior Policy Year")
  else if hdrLastMatch (pyStrip line) then some (str "Last Policy Year")
  else none

/-- The records contributed by one line of the loop, given the incoming
section state: empty unless a section is active (after this line's own
header transition) and the line starts with six digits, in which case the
parse result (zero or one record) is contributed. -/
def newRecs (meta : Meta) (sec : Option Str) (line : Str) : List ClaimRecord :=
  match headerStep sec (pyStrip line) with
  | none => []
  | some s =>
    if startsSixDigits (pyStrip line) then (parseLine meta s (pyStrip line)).toList
    else []

/-! Spec-side definitions (used only to state claims that are refuted, never
as the embedding of the code). -/

/-- Modelled from the spec text of the benefits filter: a claims-count cell
that, taken as a whole, is purely numeric. -/
def wholeCellNumeric (cell : Str) : Bool :=
  !cell.isEmpty && cell.all isDigit

/-- Modelled from the spec text of the data-line test: the line starts with
a 6-digit whitespace-delimited token. -/
def startsWithSixDigitToken (line : Str) : Bool :=
  match pySplit line with
  | t :: _ => decide (t.length = 6) && t.all isDigit
  | [] => false

/-! Structural lemmas about the embedded string primitives. -/

theorem pySplitAux_tokens : ∀ (s acc : Str), (∀ c ∈ acc, isSpace c = false) →
    ∀ t ∈ pySplitAux s acc, t ≠ [] ∧ ∀ c ∈ t, isSpace c = false := by
  intro s
  induction s with
  | nil =>
    intro acc hacc t ht
    cases acc with
    | nil => simp [pySplitAux] at ht
    | cons a as =>
      simp [pySplitAux] at ht
      subst ht
      refine ⟨by simp, ?_⟩
      intro c hc
      refine hacc c ?_
      rcases List.mem_append.mp hc with h | h
      · exact List.mem_cons_of_mem a (List.mem_reverse.mp h)
      · rw [List.mem_singleton] at h
        subst h
        exact List.mem_cons_self _ _
  | cons c cs ih =>
    intro acc hacc t ht
    by_cases hc : isSpace c
    · cases acc with
      | nil =>
        simp only [pySplitAux, if_pos hc] at ht
        exact ih [] (by simp) t ht
      | cons a as =>
        simp only [pySplitAux, if_pos hc] at ht
        rcases List.mem_cons.mp ht with h | h
        · subst h
          refine ⟨by simp, ?_⟩
          intro d hd
          exact hacc d (List.mem_reverse.mp hd)
        · exact ih [] (by simp) t h
    · simp only [pySplitAux, if_neg hc] at ht
      refine ih (c :: acc) ?_ t ht
      intro d hd
      rcases List.mem_cons.mp hd with h | h
      · subst h; exact Bool.eq_false_iff.mpr hc
      · exact hacc d h

/-- Every token produced by Python `split()` is non-empty and contains no
whitespace. -/
theorem pySplit_tokens (line : Str) : ∀ t ∈ pySplit line,
    t ≠ [] ∧ ∀ c ∈ t, isSpace c = false :=
  pySplitAux_tokens line [] (by simp)

theorem dropWhile_isSpace_eq_self (l : Str) (h : ∀ c ∈ l, isSpace c = false) :
    l.dropWhile isSpace = l := by
  cases l with
  | nil => rfl
  | cons c cs => simp [List.dropWhile_cons, h c (by simp)]

theorem pyStrip_eq_self (t : Str) (h : ∀ c ∈ t, isSpace c = false) : pyStrip t = t := by
  unfold pyStrip
  rw [dropWhile_isSpace_eq_self t h,
      dropWhile_isSpace_eq_self t.reverse (fun c hc => h c (List.mem_reverse.mp hc)),
      List.reverse_reverse]

theorem getD_mem_of_lt : ∀ (l : List α) (n : Nat) (d : α), n < l.length → l.getD n d ∈ l := by
  intro l
  induction l with
  | nil => intro n d h; simp at h
  | cons a as ih =>
    intro n d h
    cases n with
    | zero => simp [List.getD]
    | succ k =>
      simp only [List.getD_cons_succ]
      exact List.mem_cons_of_mem a (ih k d (by simpa using h))

/-- The emptiness guard of the data-line parser can never fire: whenever the
line has at least five whitespace tokens, tokens 3 and 4 strip to
themselves and are non-empty. -/
theorem parseLine_guard_eq_false (line : Str) (h5 : 5 ≤ (pySplit line).length) :
    (pyStrip ((pySplit line).getD 3 []) == ([] : Str)
      || pyStrip ((pySplit line).getD 4 []) == ([] : Str)) = false := by
  have h3 : (pySplit line).getD 3 [] ∈ pySplit line :=
    getD_mem_of_lt _ 3 _ (by omega)
  have h4 : (pySplit line).getD 4 [] ∈ pySplit line :=
    getD_mem_of_lt _ 4 _ (by omega)
  obtain ⟨hne3, hch3⟩ := pySplit_tokens line _ h3
  obtain ⟨hne4, hch4⟩ := pySplit_tokens line _ h4
  rw [pyStrip_eq_self _ hch3, pyStrip_eq_self _ hch4]
  rw [Bool.or_eq_false_iff]
  constructor <;> rw [beq_eq_false_iff_ne]
  · exact hne3
  · exact hne4

/-! Lemmas about the leftmost-search combinator. -/

theorem search_post {α : Type} {P : α → Prop} (m : Str → Option α)
    (hm : ∀ t r, m t = some r → P r) :
    ∀ (s : Str) (r : α), search m s = some r → P r := by
  intro s
  induction s with
  | nil => intro r h; simp [search] at h
  | cons c cs ih =>
    intro r h
    unfold search at h
    cases hm' : m (c :: cs) with
    | some x => rw [hm'] at h; cases h; exact hm _ _ hm'
    | none => rw [hm'] at h; exact ih r h

theorem search_isSome_of_drop {α : Type} (m : Str → Option α) (h0 : m [] = none) :
    ∀ (s : Str) (n : Nat), (m (s.drop n)).isSome = true → (search m s).isSome = true := by
  intro s
  induction s with
  | nil =>
    intro n h
    rw [List.drop_nil, h0] at h
    simp at h
  | cons c cs ih =>
    intro n h
    cases n with
    | zero =>
      rw [List.drop_zero] at h
      unfold search
      cases hm : m (c :: cs) with
      | some x => simp
      | none => rw [hm] at h; simp at h
    | succ k =>
      rw [List.drop_succ_cons] at h
      unfold search
      cases hm : m (c :: cs) with
      | some x => simp
      | none => exact ih k h

theorem isPrefixOf_exists_append : ∀ (p s : Str), p.isPrefixOf s = true → ∃ t, s = p ++ t := by
  intro p
  induction p with
  | nil => intro s _; exact ⟨s, rfl⟩
  | cons a as ih =>
    intro s h
    cases s with
    | nil => simp [List.isPrefixOf] at h
    | cons b bs =>
      simp only [List.isPrefixOf, Bool.and_eq_true, beq_iff_eq] at h
      obtain ⟨t, ht⟩ := ih bs h.2
      exact ⟨t, by simp [h.1, ht]⟩

theorem containsSub_exists_drop : ∀ (s pat : Str), containsSub s pat = true →
    ∃ n t, s.drop n = pat ++ t := by
  intro s
  induction s with
  | nil =>
    intro pat h
    simp [containsSub, List.isEmpty_iff] at h
    exact ⟨0, [], by simp [h]⟩
  | cons c cs ih =>
    intro pat h
    unfold containsSub at h
    rcases Bool.or_eq_true_iff.mp h with h1 | h1
    · obtain ⟨t, ht⟩ := isPrefixOf_exists_append pat (c :: cs) h1
      exact ⟨0, t, by simpa using ht⟩
    · obtain ⟨n, t, ht⟩ := ih pat h1
      exact ⟨n + 1, t, by simpa [List.drop_succ_cons] using ht⟩

/-! Structural lemmas about the claims state machine. -/

theorem headerStep_strip (sec : Option Str) (line : Str) :
    headerStep sec (pyStrip line) =
      (match lineHeaderLabel line with
       | some v => some v
       | none => sec) := by
  unfold headerStep lineHeaderLabel
  split_ifs <;> rfl

/-- Normal form of one loop iteration: the new section is the header
transition, and the new records are appended on the right. -/
theorem claimsStep_eq (meta : Meta) (st : Option Str × List ClaimRecord) (line : Str) :
    claimsStep meta st line =
      (headerStep st.1 (pyStrip line), st.2 ++ newRecs meta st.1 line) := by
  cases h : headerStep st.1 (pyStrip line) with
  | none => simp [claimsStep, newRecs, h]
  | some s =>
    by_cases h6 : startsSixDigits (pyStrip line) = true
    · cases hp : parseLine meta s (pyStrip line) with
      | none => simp [claimsStep, newRecs, h, h6, hp, Option.toList]
      | some x => simp [claimsStep, newRecs, h, h6, hp, Option.toList]
    · simp [claimsStep, newRecs, h, h6]

theorem foldl_claimsStep_fst (meta : Meta) :
    ∀ (lines : List Str) (st : Option Str × List ClaimRecord),
    (lines.foldl (claimsStep meta) st).1 =
      lines.foldl (fun s l => headerStep s (pyStrip l)) st.1 := by
  intro lines
  induction lines with
  | nil => intro st; rfl
  | cons l tl ih =>
    intro st
    simp only [List.foldl_cons]
    rw [ih, claimsStep_eq]

theorem foldl_claimsStep_snd (meta : Meta) :
    ∀ (lines : List Str) (s : Option Str) (r : List ClaimRecord),
    (lines.foldl (claimsStep meta) (s, r)).2 =
      r ++ (lines.foldl (claimsStep meta) (s, [])).2 := by
  intro lines
  induction lines with
  | nil => intro s r; simp
  | cons l tl ih =>
    intro s r
    simp only [List.foldl_cons, claimsStep_eq]
    rw [ih, ih (headerStep s (pyStrip l)) (List.nil ++ newRecs meta s l)]
    simp

/-- The section state is independent of the metadata and of the accumulated
records. -/
theorem sectionFold_eq (lines : List Str) (meta : Meta) :
    (lines.foldl (claimsStep meta) (none, [])).1 = sectionFold lines := by
  unfold sectionFold
  rw [foldl_claimsStep_fst, foldl_claimsStep_fst]

theorem sectionFold_headerfold (lines : List Str) :
    sectionFold lines = lines.foldl (fun s l => headerStep s (pyStrip l)) none :=
  foldl_claimsStep_fst metaDefault lines (none, [])

theorem sectionFold_append_single (lines : List Str) (line : Str) :
    sectionFold (lines ++ [line]) = headerStep (sectionFold lines) (pyStrip line) := by
  rw [sectionFold_headerfold (lines ++ [line]), sectionFold_headerfold lines,
      List.foldl_append]
  simp only [List.foldl_cons, List.foldl_nil]

/-- Appending one line contributes exactly that line's records. -/
theorem extract_append_single (meta : Meta) (lines : List Str) (line : Str) :
    extract_claims_data meta (lines ++ [line]) =
      extract_claims_data meta lines ++ newRecs meta (sectionFold lines) line := by
  unfold extract_claims_data
  rw [List.foldl_append]
  simp only [List.foldl_cons, List.foldl_nil]
  rw [claimsStep_eq]
  rw [sectionFold_eq]

/-- The records of a prefix are a prefix of the records of the whole input:
later lines never change earlier records. -/
theorem extract_append_exists (meta : Meta) (ls ms : List Str) :
    ∃ t, extract_claims_data meta ls ++ t = extract_claims_data meta (ls ++ ms) := by
  refine ⟨(ms.foldl (claimsStep meta) ((ls.foldl (claimsStep meta) (none, [])).1, [])).2, ?_⟩
  show extract_claims_data meta ls ++ _ = (List.foldl (claimsStep meta) (none, []) (ls ++ ms)).2
  rw [List.foldl_append]
  exact (foldl_claimsStep_snd meta ms (ls.foldl (claimsStep meta) (none, [])).1
    (ls.foldl (claimsStep meta) (none, [])).2).symm

/-- The active section is exactly the label of the most recently seen header
line, if any. -/
theorem sectionFold_getLast (lines : List Str) :
    sectionFold lines = (lines.filterMap lineHeaderLabel).getLast? := by
  induction lines using List.reverseRecOn with
  | nil => rfl
  | append_singleton ls l ih =>
    rw [sectionFold_append_single, ih, headerStep_strip, List.filterMap_append]
    cases h : lineHeaderLabel l with
    | none => simp [List.filterMap, h]
    | some v => simp [List.filterMap, h, List.getLast?_concat]

theorem parseLine_fields (meta : Meta) (s line : Str) (r : ClaimRecord)
    (h : parseLine meta s line = some r) :
    r.Policy_Year = s ∧ r.End_Date = meta.end_date ∧ r.Class = meta.cls ∧
      r.Overall_Limit = meta.overall_limit := by
  simp only [parseLine] at h
  by_cases h5 : 5 ≤ (pySplit line).length
  · rw [if_pos h5] at h
    by_cases hg : (pyStrip ((pySplit line).getD 3 []) == ([] : Str)
        || pyStrip ((pySplit line).getD 4 []) == ([] : Str)) = true
    · rw [if_pos hg] at h; cases h
    · rw [if_neg hg] at h
      cases h1 : pyInt ((pySplit line).getD 1 []) with
      | none => rw [h1] at h; cases h
      | some a =>
        rw [h1] at h
        cases h2 : pyInt ((pySplit line).getD 2 []) with
        | none => rw [h2] at h; cases h
        | some b =>
          rw [h2] at h
          cases h3 : pyFloat (removeCommas ((pySplit line).getD 3 [])) with
          | none => rw [h3] at h; cases h
          | some x =>
            rw [h3] at h
            cases h4 : pyFloat (removeCommas ((pySplit line).getD 4 [])) with
            | none => rw [h4] at h; cases h
            | some y =>
              rw [h4] at h
              cases h
              exact ⟨rfl, rfl, rfl, rfl⟩
  · rw [if_neg h5] at h; cases h

theorem newRecs_policyYear (meta : Meta) (sec : Option Str) (line : Str)
    (r : ClaimRecord) (h : r ∈ newRecs meta sec line) :
    some r.Policy_Year = headerStep sec (pyStrip line) := by
  cases hh : headerStep sec (pyStrip line) with
  | none => simp [newRecs, hh] at h
  | some s =>
    by_cases h6 : startsSixDigits (pyStrip line) = true
    · cases hp : parseLine meta s (pyStrip line) with
      | none => simp [newRecs, hh, h6, hp, Option.toList] at h
      | some x =>
        simp [newRecs, hh, h6, hp, Option.toList] at h
        subst h
        rw [(parseLine_fields meta s (pyStrip line) _ hp).1]
    · simp [newRecs, hh, h6] at h

theorem parseLine_none_of_short (meta : Meta) (s line : Str)
    (h : (pySplit line).length < 5) : parseLine meta s line = none := by
  simp only [parseLine]
  rw [if_neg (by omega)]

theorem parseLine_none_of_bad (meta : Meta) (s line : Str)
    (hbad : pyInt ((pySplit line).getD 1 []) = none
      ∨ pyInt ((pySplit line).getD 2 []) = none
      ∨ pyFloat (removeCommas ((pySplit line).getD 3 [])) = none
      ∨ pyFloat (removeCommas ((pySplit line).getD 4 [])) = none) :
    parseLine meta s line = none := by
  simp only [parseLine]
  by_cases h5 : 5 ≤ (pySplit line).length
  · rw [if_pos h5]
    by_cases hg : (pyStrip ((pySplit line).getD 3 []) == ([] : Str)
        || pyStrip ((pySplit line).getD 4 []) == ([] : Str)) = true
    · rw [if_pos hg]
    · rw [if_neg hg]
      cases h1 : pyInt ((pySplit line).getD 1 []) with
      | none => rfl
      | some a =>
        cases h2 : pyInt ((pySplit line).getD 2 []) with
        | none => rfl
        | some b =>
          cases h3 : pyFloat (removeCommas ((pySplit line).getD 3 [])) with
          | none => rfl
          | some x =>
            cases h4 : pyFloat (removeCommas ((pySplit line).getD 4 [])) with
            | none => rfl
            | some y =>
              rcases hbad with hb | hb | hb | hb
              · rw [hb] at h1; cases h1
              · rw [hb] at h2; cases h2
              · rw [hb] at h3; cases h3
              · rw [hb] at h4; cases h4
  · rw [if_neg h5]

theorem parseLine_some_of_good (meta : Meta) (s line : Str)
    (h5 : 5 ≤ (pySplit line).length)
    (a b : Int) (x y : PyFloat)
    (h1 : pyInt ((pySplit line).getD 1 []) = some a)
    (h2 : pyInt ((pySplit line).getD 2 []) = some b)
    (h3 : pyFloat (removeCommas ((pySplit line).getD 3 [])) = some x)
    (h4 : pyFloat (removeCommas ((pySplit line).getD 4 [])) = some y) :
    parseLine meta s line =
      some ⟨(pySplit line).getD 0 [], a, b, x, y,
            s, meta.end_date, meta.cls, meta.overall_limit⟩ := by
  simp only [parseLine]
  rw [if_pos h5, if_neg (by rw [parseLine_guard_eq_false line h5]; simp), h1, h2, h3, h4]

/-! Lemmas about the class pattern and the notes classifier. -/

theorem matchClassAt_letter : ∀ (s : Str) (c : Char),
    matchClassAt s = some c → isLetterA c = true := by
  intro s c h
  unfold matchClassAt at h
  split at h
  · cases h
  · split at h
    · cases h
    · split at h
      · split at h
        · cases h
          assumption
        · cases h
      · cases h

theorem isSpace_false_of_letter (c : Char) (h : isLetterA c = true) :
    isSpace c = false := by
  cases hq : isSpace c with
  | false => rfl
  | true =>
    exfalso
    simp only [isSpace, Bool.or_eq_true, beq_iff_eq] at hq
    rcases hq with ((((h1 | h1) | h1) | h1) | h1) | h1 <;> subst h1 <;>
      exact absurd h (by decide)

/-- The "paid N%" pattern matches at the head of any text beginning with
the literal `paid 50% up to`, capturing `50`. -/
theorem matchPaidPctAt_concrete (rest : Str) :
    matchPaidPctAt (str "paid 50% up to" ++ rest) = some (str "50") := rfl

/-! Lemmas about the benefits normalizer. -/

theorem convertColumn_length (vals : List Str) :
    (convertColumn vals).length = vals.length := by
  simp only [convertColumn]
  split_ifs <;> simp

theorem zipRows_proj (meta : Meta) :
    ∀ (rs : List RawRow) (as_ bs cs : List Cell) (ns : List Str),
    as_.length = rs.length → bs.length = rs.length → cs.length = rs.length →
    ns.length = rs.length →
    (zipRows meta rs as_ bs cs ns).map (fun x => x.Benefit_Sama) = rs.map (fun r => r.c0)
    ∧ (zipRows meta rs as_ bs cs ns).map (fun x => x.Number_of_Claims) = as_
    ∧ (zipRows meta rs as_ bs cs ns).map (fun x => x.Amount_of_Claims) = bs
    ∧ (zipRows meta rs as_ bs cs ns).map (fun x => x.Amount_of_Claims_VAT) = cs := by
  intro rs
  induction rs with
  | nil =>
    intro as_ bs cs ns h1 h2 h3 h4
    rw [List.length_nil, List.length_eq_zero] at h1 h2 h3 h4
    subst h1; subst h2; subst h3; subst h4
    exact ⟨rfl, rfl, rfl, rfl⟩
  | cons r rs ih =>
    intro as_ bs cs ns h1 h2 h3 h4
    cases as_ with
    | nil => simp at h1
    | cons a as_ =>
      cases bs with
      | nil => simp at h2
      | cons b bs =>
        cases cs with
        | nil => simp at h3
        | cons c cs =>
          cases ns with
          | nil => simp at h4
          | cons n ns =>
            simp only [List.length_cons, Nat.succ.injEq] at h1 h2 h3 h4
            obtain ⟨e1, e2, e3, e4⟩ := ih as_ bs cs ns h1 h2 h3 h4
            simp [zipRows, e1, e2, e3, e4]

/-! Lemma about the validation fold. -/

theorem checkCols_eq (ctor : Str → Diag) (cols : List Str) :
    ∀ (req : List Str) (b : Bool) (ds : List Diag),
    checkCols ctor cols (b, ds) req =
      ((b && req.all (fun c => decide (c ∈ cols))),
       ds ++ (req.filter (fun c => decide (c ∉ cols))).map ctor) := by
  intro req
  induction req with
  | nil => intro b ds; simp [checkCols]
  | cons c tl ih =>
    intro b ds
    by_cases hc : c ∈ cols
    · have : checkCols ctor cols (b, ds) (c :: tl) = checkCols ctor cols (b, ds) tl := by
        simp [checkCols, hc]
      rw [this, ih]
      simp [hc]
    · have : checkCols ctor cols (b, ds) (c :: tl) =
          checkCols ctor cols (false, ds ++ [ctor c]) tl := by
        simp [checkCols, hc]
      rw [this, ih]
      simp [hc]

/-! Claim C1. -/

/-- Claim C1, counterexample: the code retains a row whose claims-count cell
is "12y", which does not match a purely-numeric pattern as a whole; the
filter only anchors at the start of the cell. -/
theorem C1_counterexample :
    (extract_benefits_data metaDefault
      [⟨str "Optical", str "12y", str "1", str "1", str "n"⟩]).length = 1
    ∧ wholeCellNumeric (str "12y") = false := by decide

/-- Claim C1 (amended): in extract_benefits_data, a row appears in the
output if and only if its claims-count cell matches the numeric pattern at
its start (its first character is a digit; the rest of the cell is not
inspected), and the retained rows keep the input grid's relative order. -/
theorem C1_normalize_filter (meta : Meta) (grid : List RawRow) :
    (extract_benefits_data meta grid).map (fun r => r.Benefit_Sama) =
      (grid.filter rowKept).map (fun r => r.c0)
    ∧ (extract_benefits_data meta grid).length = (grid.filter rowKept).length := by
  have hz := zipRows_proj meta (grid.filter rowKept)
    (convertColumn ((grid.filter rowKept).map (fun r => r.c1)))
    (convertColumn ((grid.filter rowKept).map (fun r => r.c2)))
    (convertColumn ((grid.filter rowKept).map (fun r => r.c3)))
    ((grid.filter rowKept).map (fun r => process_notes r.c4 r.c4))
    (by rw [convertColumn_length, List.length_map])
    (by rw [convertColumn_length, List.length_map])
    (by rw [convertColumn_length, List.length_map])
    (by rw [List.length_map])
  refine ⟨hz.1, ?_⟩
  have := congrArg List.length hz.1
  simpa using this

/-! Claim C2. -/

/-- Claim C2, counterexample: the class pattern is compiled with re.I, so
the character class also matches a lower-case letter; on the text "Class b"
the extracted policy class is "b", which is not an upper-case letter. -/
theorem C2_counterexample :
    extract_metadata_class (str "Class b") = str "b" ∧ isUpperA 'b' = false := by
  decide

/-- Claim C2 (amended): for every input text, the policy class returned by
extract_metadata is a single ASCII letter: the captured letter (of either
case, because the class pattern is matched case-insensitively) when the
pattern matches, or the default "B" when it does not. -/
theorem C2_class_letter (text : Str) :
    (∃ c, extract_metadata_class text = [c] ∧ isLetterA c = true)
    ∧ (search matchClassAt text = none → extract_metadata_class text = str "B")
    ∧ (∀ c, search matchClassAt text = some c →
        extract_metadata_class text = [c]) := by
  refine ⟨?_, ?_, ?_⟩
  · cases h : search matchClassAt text with
    | none => exact ⟨'B', by simp [extract_metadata_class, h]; rfl, by decide⟩
    | some c =>
      have hl : isLetterA c = true := search_post matchClassAt matchClassAt_letter text c h
      have hs : isSpace c = false := isSpace_false_of_letter c hl
      refine ⟨c, ?_, hl⟩
      simp [extract_metadata_class, h, pyStrip, List.dropWhile_cons, hs]
  · intro h
    simp [extract_metadata_class, h]
  · intro c h
    have hl : isLetterA c = true := search_post matchClassAt matchClassAt_letter text c h
    have hs : isSpace c = false := isSpace_false_of_letter c hl
    simp [extract_metadata_class, h, pyStrip, List.dropWhile_cons, hs]

/-- Claim C2, witness: a text with no class phrase keeps the default. -/
theorem C2_witness :
    extract_metadata_class (str "overall benefit limit 1,000,000") = str "B" :=
  (C2_class_letter (str "overall benefit limit 1,000,000")).2.1 (by decide)

/-! Claim C3. -/

/-- Claim C3, counterexample: numeric conversion is per column, not per
cell; with one unconvertible cell "x" in the claims-amount column, the
individually convertible cell "5,0" of the other row is NOT parsed as a
float but passed through — and passed through comma-stripped ("50"), not
unchanged. -/
theorem C3_counterexample :
    ((extract_benefits_data metaDefault
        [⟨str "A", str "1", str "5,0", str "1", str "n"⟩,
         ⟨str "B", str "2", str "x", str "2", str "n"⟩]).map
      (fun r => r.Amount_of_Claims)) = [Cell.s (str "50"), Cell.s (str "x")]
    ∧ (pyFloat (removeCommas (str "5,0"))).isSome = true := by decide

/-- Claim C3 (amended): for each of the three numeric benefit columns,
thousands separators are stripped from every cell, then the column is
converted to floats as a whole: if every comma-stripped cell parses, all
cells become floats; if any cell fails, the entire column (including the
individually parseable cells) is passed through as comma-stripped strings.
Rows are included either way. -/
theorem C3_numeric_cells (meta : Meta) (grid : List RawRow) :
    ((extract_benefits_data meta grid).map (fun r => r.Number_of_Claims) =
        convertColumn ((grid.filter rowKept).map (fun r => r.c1)))
    ∧ ((extract_benefits_data meta grid).map (fun r => r.Amount_of_Claims) =
        convertColumn ((grid.filter rowKept).map (fun r => r.c2)))
    ∧ ((extract_benefits_data meta grid).map (fun r => r.Amount_of_Claims_VAT) =
        convertColumn ((grid.filter rowKept).map (fun r => r.c3)))
    ∧ (∀ vals : List Str,
        (vals.map removeCommas).all (fun v => (pyFloat v).isSome) = true →
        convertColumn vals =
          (vals.map removeCommas).map (fun v => Cell.f ((pyFloat v).getD PyFloat.nan)))
    ∧ (∀ vals : List Str,
        (vals.map removeCommas).all (fun v => (pyFloat v).isSome) = false →
        convertColumn vals = (vals.map removeCommas).map Cell.s) := by
  have hz := zipRows_proj meta (grid.filter rowKept)
    (convertColumn ((grid.filter rowKept).map (fun r => r.c1)))
    (convertColumn ((grid.filter rowKept).map (fun r => r.c2)))
    (convertColumn ((grid.filter rowKept).map (fun r => r.c3)))
    ((grid.filter rowKept).map (fun r => process_notes r.c4 r.c4))
    (by rw [convertColumn_length, List.length_map])
    (by rw [convertColumn_length, List.length_map])
    (by rw [convertColumn_length, List.length_map])
    (by rw [List.length_map])
  refine ⟨hz.2.1, hz.2.2.1, hz.2.2.2, ?_, ?_⟩
  · intro vals h
    simp only [convertColumn]
    rw [if_pos h]
  · intro vals h
    simp only [convertColumn]
    rw [if_neg (by rw [h]; simp)]

/-- Claim C3, witness: a fully parseable column is converted to floats, and
a column with one bad cell is passed through whole as comma-stripped
strings. -/
theorem C3_witness :
    convertColumn [str "1,0", str "2"] = [Cell.f (PyFloat.fin 10 0), Cell.f (PyFloat.fin 2 0)]
    ∧ convertColumn [str "5", str "x"] = [Cell.s (str "5"), Cell.s (str "x")] := by
  constructor
  · exact ((C3_numeric_cells metaDefault []).2.2.2.1 [str "1,0", str "2"]
      (by decide)).trans (by decide)
  · exact ((C3_numeric_cells metaDefault []).2.2.2.2 [str "5", str "x"]
      (by decide)).trans (by decide)

/-! Claim C4. -/

/-- Claim C4, counterexample: the data-line test accepts any line whose
first six characters are digits, even when the first whitespace token has
seven digits; the line "1234567 1 1 1.0 1.0" produces a record although it
does not start with a 6-digit token. -/
theorem C4_counterexample :
    (extract_claims_data metaDefault
      [str "Last Policy Year", str "1234567 1 1 1.0 1.0"]).length = 1
    ∧ startsWithSixDigitToken (str "1234567 1 1 1.0 1.0") = false := by decide

/-- Claim C4 (amended): a line is treated as a data line if and only if
current_section is non-None after applying any header transition triggered
by that same line, and the line's first six characters are digits (the
leading digit run may be longer than six); no line preceding the first
recognized section header ever produces a ClaimRecord, and matching a
header pattern does not prevent the same line from also being tested and
parsed as a data line. -/
theorem C4_data_line_iff :
    (∀ (meta : Meta) (st : Option Str × List ClaimRecord) (line : Str),
      headerStep st.1 (pyStrip line) = none →
      claimsStep meta st line = (none, st.2))
    ∧ (∀ (meta : Meta) (st : Option Str × List ClaimRecord) (line sec : Str),
      headerStep st.1 (pyStrip line) = some sec →
      startsSixDigits (pyStrip line) = false →
      claimsStep meta st line = (some sec, st.2))
    ∧ (∀ (meta : Meta) (st : Option Str × List ClaimRecord) (line sec : Str),
      headerStep st.1 (pyStrip line) = some sec →
      startsSixDigits (pyStrip line) = true →
      claimsStep meta st line =
        (some sec, st.2 ++ (parseLine meta sec (pyStrip line)).toList))
    ∧ (∀ (meta : Meta) (lines : List Str),
      (∀ l ∈ lines, headerStep none (pyStrip l) = none) →
      extract_claims_data meta lines = []) := by
  refine ⟨?_, ?_, ?_, ?_⟩
  · intro meta st line h
    rw [claimsStep_eq, h]
    simp [newRecs, h]
  · intro meta st line sec h h6
    rw [claimsStep_eq, h]
    simp [newRecs, h, h6]
  · intro meta st line sec h h6
    rw [claimsStep_eq, h]
    simp [newRecs, h, h6]
  · intro meta lines
    induction lines using List.reverseRecOn with
    | nil => intro _; rfl
    | append_singleton ls l ih =>
      intro h
      have hls : ∀ x ∈ ls, headerStep none (pyStrip x) = none :=
        fun x hx => h x (List.mem_append_left _ hx)
      have hl : headerStep none (pyStrip l) = none := h l (by simp)
      rw [extract_append_single, ih hls]
      have hsec : sectionFold ls = none := by
        rw [sectionFold_getLast]
        have hnil : ls.filterMap lineHeaderLabel = [] := by
          rw [List.filterMap_eq_nil_iff]
          intro x hx
          have hx2 := hls x hx
          rw [headerStep_strip] at hx2
          cases hgx : lineHeaderLabel x with
          | none => rfl
          | some v => rw [hgx] at hx2; cases hx2
        rw [hnil]
        rfl
      simp [newRecs, hsec, hl]

/-- Claim C4, witness: with a section already active, a plain data line is
parsed into exactly its record. -/
theorem C4_witness :
    claimsStep metaDefault (some (str "Last Policy Year"), [])
        (str "123456 100 10 1,000.00 50.00") =
      (some (str "Last Policy Year"),
       [⟨str "123456", 100, 10, PyFloat.fin 1000 0, PyFloat.fin 50 0,
         str "Last Policy Year", str "2023-02-16", str "B", 1000000⟩]) := by
  have h := C4_data_line_iff.2.2.1 metaDefault (some (str "Last Policy Year"), [])
    (str "123456 100 10 1,000.00 50.00") (str "Last Policy Year")
    (by decide) (by decide)
  exact h.trans (by decide)

/-! Claim C5. -/

/-- Claim C5: for a qualifying data line, if the line has fewer than five
whitespace tokens, or any of tokens 1-4 fails numeric parsing (integers for
tokens 1-2, comma-stripped floats for tokens 3-4), no ClaimRecord and no
partial record is appended and processing continues; otherwise exactly one
complete ClaimRecord is appended. -/
theorem C5_malformed_lines (meta : Meta) (st : Option Str × List ClaimRecord)
    (line sec : Str)
    (hh : headerStep st.1 (pyStrip line) = some sec)
    (h6 : startsSixDigits (pyStrip line) = true) :
    ((pySplit (pyStrip line)).length < 5 → (claimsStep meta st line).2 = st.2)
    ∧ (pyInt ((pySplit (pyStrip line)).getD 1 []) = none
        ∨ pyInt ((pySplit (pyStrip line)).getD 2 []) = none
        ∨ pyFloat (removeCommas ((pySplit (pyStrip line)).getD 3 [])) = none
        ∨ pyFloat (removeCommas ((pySplit (pyStrip line)).getD 4 [])) = none →
        (claimsStep meta st line).2 = st.2)
    ∧ (∀ (a b : Int) (x y : PyFloat), 5 ≤ (pySplit (pyStrip line)).length →
        pyInt ((pySplit (pyStrip line)).getD 1 []) = some a →
        pyInt ((pySplit (pyStrip line)).getD 2 []) = some b →
        pyFloat (removeCommas ((pySplit (pyStrip line)).getD 3 [])) = some x →
        pyFloat (removeCommas ((pySplit (pyStrip line)).getD 4 [])) = some y →
        (claimsStep meta st line).2 = st.2 ++
          [⟨(pySplit (pyStrip line)).getD 0 [], a, b, x, y,
            sec, meta.end_date, meta.cls, meta.overall_limit⟩])
    ∧ (∀ rest : List Str, List.foldl (claimsStep meta) st (line :: rest) =
        List.foldl (claimsStep meta) (claimsStep meta st line) rest) := by
  refine ⟨?_, ?_, ?_, ?_⟩
  · intro h
    rw [claimsStep_eq]
    simp [newRecs, hh, h6, parseLine_none_of_short meta sec _ h]
  · intro h
    rw [claimsStep_eq]
    simp [newRecs, hh, h6, parseLine_none_of_bad meta sec _ h]
  · intro a b x y h5 h1 h2 h3 h4
    rw [claimsStep_eq]
    simp [newRecs, hh, h6, parseLine_some_of_good meta sec _ h5 a b x y h1 h2 h3 h4,
      Option.toList]
  · intro rest
    rw [List.foldl_cons]

/-- Claim C5, witness: a line whose second token is not numeric produces no
record at all. -/
theorem C5_witness :
    (claimsStep metaDefault (some (str "Last Policy Year"), [])
      (str "123456 ab 10 1.0 2.0")).2 = [] := by
  have h := (C5_malformed_lines metaDefault (some (str "Last Policy Year"), [])
      (str "123456 ab 10 1.0 2.0") (str "Last Policy Year")
      (by decide) (by decide)).2.1
  exact h (by decide)

/-! Claim C6. -/

/-- Claim C6: every ClaimRecord carries the label of the most recently seen
header line at or before its source line (the active section is exactly the
last header label seen so far); the label persists until the next header
line or end of input, and later lines never change earlier records. -/
theorem C6_section_invariant :
    (∀ lines : List Str,
      sectionFold lines = (lines.filterMap lineHeaderLabel).getLast?)
    ∧ (∀ (meta : Meta) (lines : List Str) (line : Str),
        extract_claims_data meta (lines ++ [line]) =
          extract_claims_data meta lines ++ newRecs meta (sectionFold lines) line)
    ∧ (∀ (meta : Meta) (lines : List Str) (line : Str) (r : ClaimRecord),
        r ∈ newRecs meta (sectionFold lines) line →
        some r.Policy_Year = sectionFold (lines ++ [line]))
    ∧ (∀ (meta : Meta) (lines suf : List Str),
        ∃ t, extract_claims_data meta lines ++ t =
          extract_claims_data meta (lines ++ suf)) := by
  refine ⟨sectionFold_getLast, extract_append_single, ?_, extract_append_exists⟩
  intro meta lines line r h
  rw [sectionFold_append_single]
  exact newRecs_policyYear meta _ line r h

/-- Claim C6, witness: the record parsed right after a "Prior Policy Year"
header carries that section label, which is the section after both lines. -/
theorem C6_witness :
    some (str "Prior Policy Year") =
      sectionFold ([str "Prior Policy Year"] ++ [str "123456 1 1 1.0 1.0"]) := by
  have h := C6_section_invariant.2.2.1 metaDefault [str "Prior Policy Year"]
    (str "123456 1 1 1.0 1.0")
    ⟨str "123456", 1, 1, PyFloat.fin 1 0, PyFloat.fin 1 0, str "Prior Policy Year",
     str "2023-02-16", str "B", 1000000⟩ (by decide)
  exact h

/-! Claim C7. -/

/-- Claim C7: the notes classifier probes its three percentage patterns in
fixed priority order (paid N-percent, then N-percent up to, then bare
N-percent), returning the first match's captured number suffixed with a
percent sign; if none match it returns "yes" when the lower-cased text
contains "cesarean" and "No info" otherwise; and for any input containing
both "paid 50% up to" and a bare "30%", the result comes from the first
pattern. -/
theorem C7_notes_priority :
    (∀ (t f ds : Str),
      search matchPaidPctAt (pyLower (t ++ ' ' :: f)) = some ds →
      process_notes t f = ds ++ str "%")
    ∧ (∀ (t f ds : Str),
      search matchPaidPctAt (pyLower (t ++ ' ' :: f)) = none →
      search matchPctUpToAt (pyLower (t ++ ' ' :: f)) = some ds →
      process_notes t f = ds ++ str "%")
    ∧ (∀ (t f ds : Str),
      search matchPaidPctAt (pyLower (t ++ ' ' :: f)) = none →
      search matchPctUpToAt (pyLower (t ++ ' ' :: f)) = none →
      search matchPctAt (pyLower (t ++ ' ' :: f)) = some ds →
      process_notes t f = ds ++ str "%")
    ∧ (∀ t f : Str,
      search matchPaidPctAt (pyLower (t ++ ' ' :: f)) = none →
      search matchPctUpToAt (pyLower (t ++ ' ' :: f)) = none →
      search matchPctAt (pyLower (t ++ ' ' :: f)) = none →
      containsSub (pyLower (t ++ ' ' :: f)) (str "cesarean") = true →
      process_notes t f = str "yes")
    ∧ (∀ t f : Str,
      search matchPaidPctAt (pyLower (t ++ ' ' :: f)) = none →
      search matchPctUpToAt (pyLower (t ++ ' ' :: f)) = none →
      search matchPctAt (pyLower (t ++ ' ' :: f)) = none →
      containsSub (pyLower (t ++ ' ' :: f)) (str "cesarean") = false →
      process_notes t f = str "No info")
    ∧ (∀ t f : Str,
      containsSub (pyLower (t ++ ' ' :: f)) (str "paid 50% up to") = true →
      containsSub (pyLower (t ++ ' ' :: f)) (str "30%") = true →
      ∃ ds, search matchPaidPctAt (pyLower (t ++ ' ' :: f)) = some ds ∧
        process_notes t f = ds ++ str "%") := by
  refine ⟨?_, ?_, ?_, ?_, ?_, ?_⟩
  · intro t f ds h1
    simp [process_notes, h1]
  · intro t f ds h1 h2
    simp [process_notes, h1, h2]
  · intro t f ds h1 h2 h3
    simp [process_notes, h1, h2, h3]
  · intro t f h1 h2 h3 h4
    simp [process_notes, h1, h2, h3, h4]
  · intro t f h1 h2 h3 h4
    simp [process_notes, h1, h2, h3, h4]
  · intro t f h50 _h30
    obtain ⟨n, t', ht⟩ := containsSub_exists_drop _ _ h50
    have hm : (matchPaidPctAt ((pyLower (t ++ ' ' :: f)).drop n)).isSome = true := by
      rw [ht, matchPaidPctAt_concrete]
      rfl
    have hs := search_isSome_of_drop matchPaidPctAt rfl _ n hm
    obtain ⟨ds, hds⟩ := Option.isSome_iff_exists.mp hs
    exact ⟨ds, hds, by simp [process_notes, hds]⟩

/-- Claim C7, witness: a remark containing both phrasings is classified by
the first-priority pattern. -/
theorem C7_witness :
    process_notes (str "Paid 50% up to 1,000, else 30%")
      (str "Paid 50% up to 1,000, else 30%") = str "50%" := by
  obtain ⟨ds, hds, hres⟩ := C7_notes_priority.2.2.2.2.2
    (str "Paid 50% up to 1,000, else 30%") (str "Paid 50% up to 1,000, else 30%")
    (by decide) (by decide)
  have he : search matchPaidPctAt
      (pyLower (str "Paid 50% up to 1,000, else 30%" ++ ' ' ::
        str "Paid 50% up to 1,000, else 30%")) = some (str "50") := by decide
  have hd : ds = str "50" := by
    have := hds.symm.trans he
    injection this
  subst hd
  exact hres.trans (by decide)

/-! Claim C8. -/

/-- Claim C8: the end-to-end scenario; the two input lines with the default
metadata yield exactly one ClaimRecord with all nine documented fields. -/
theorem C8_end_to_end :
    extract_claims_data metaDefault
      [str "Last Policy Year", str "123456 100 10 1,000.00 50.00"] =
      [⟨str "123456", 100, 10, PyFloat.fin 1000 0, PyFloat.fin 50 0,
        str "Last Policy Year", str "2023-02-16", str "B", 1000000⟩] := by decide

/-! Claim C9. -/

/-- Claim C9: validate returns true if and only if the claims collection
has all nine required claims columns and the benefits collection all nine
required benefits columns, and it reports each missing column as its own
diagnostic naming that column, claims-side diagnostics first and
independent of benefits-side problems (the function is total, so it never
raises). -/
theorem C9_validate (claimsCols benCols : List Str) :
    ((validate_dataframes claimsCols benCols).1 = true ↔
      (∀ c ∈ req_claims, c ∈ claimsCols) ∧ (∀ c ∈ req_ben, c ∈ benCols))
    ∧ (validate_dataframes claimsCols benCols).2 =
        (req_claims.filter (fun c => decide (c ∉ claimsCols))).map Diag.missingClaims
        ++ (req_ben.filter (fun c => decide (c ∉ benCols))).map Diag.missingBen := by
  have h1 := checkCols_eq Diag.missingClaims claimsCols req_claims true []
  have h2 := checkCols_eq Diag.missingBen benCols req_ben
    (true && req_claims.all fun c => decide (c ∈ claimsCols))
    ([] ++ (req_claims.filter fun c => decide (c ∉ claimsCols)).map Diag.missingClaims)
  constructor
  · unfold validate_dataframes
    rw [h1, h2]
    simp [List.all_eq_true, and_assoc]
  · unfold validate_dataframes
    rw [h1, h2]
    simp

/-- Claim C9, witness: a claims collection missing exactly the "Class"
column is reported invalid with a single diagnostic naming that column. -/
theorem C9_witness :
    (validate_dataframes (req_claims.erase (str "Class")) req_ben).1 = false
    ∧ (validate_dataframes (req_claims.erase (str "Class")) req_ben).2 =
        [Diag.missingClaims (str "Class")] := by
  have h := C9_validate (req_claims.erase (str "Class")) req_ben
  constructor
  · cases hb : (validate_dataframes (req_claims.erase (str "Class")) req_ben).1 with
    | false => rfl
    | true => exact absurd (h.1.mp hb) (by decide)
  · exact h.2.trans (by decide)

/-! Claim C10. -/

/-- Claim C10: the emptiness guard on tokens 3 and 4 of a data line is
unreachable: Python split() yields only non-empty, whitespace-free tokens,
so for any line with at least five tokens the guard condition is false. -/
theorem C10_guard_unreachable (line : Str) :
    (∀ t ∈ pySplit line, t ≠ [] ∧ ∀ c ∈ t, isSpace c = false)
    ∧ (5 ≤ (pySplit line).length →
        (pyStrip ((pySplit line).getD 3 []) == ([] : Str)
          || pyStrip ((pySplit line).getD 4 []) == ([] : Str)) = false) :=
  ⟨pySplit_tokens line, parseLine_guard_eq_false line⟩

/-- Claim C10, witness: the guard condition evaluates to false on a
concrete five-token line. -/
theorem C10_witness :
    (pyStrip ((pySplit (str "123456 1 2 3,0 4.5")).getD 3 []) == ([] : Str)
      || pyStrip ((pySplit (str "123456 1 2 3,0 4.5")).getD 4 []) == ([] : Str))
      = false :=
  (C10_guard_unreachable (str "123456 1 2 3,0 4.5")).2 (by decide)

end PdfExtractor
